import Mathlib

/-!
Formal model of the résumé-site script (`assets/app.js`) and its duplicated
copy (the unnamed source file).  The script has two parts: a loader that
fetches candidate data files and parses the first one that succeeds, and a
renderer that projects the parsed record into DOM nodes under one of three
themes.  JavaScript values produced by `JSON.parse` are modelled by `JSVal`;
numeric literals are kept uninterpreted as their lexemes (no property in
this development depends on numeric value, only on zero-ness for
truthiness).  DOM nodes are modelled by `Node`; an `innerHTML` assignment is
a `rawHtml` child, a `textContent` assignment is a `textNode` child.
Exceptions (JS `throw`) are modelled with `Except`; a function that the
source wraps in `try`/`catch` is total, with the catch handler applied to
the `.error` case.
-/

/-- A JavaScript value as produced by `JSON.parse` (or `jsyaml.load`).
`num` keeps the numeric literal as written; JS float formatting is not
modelled.  JS `undefined` (absent property) is folded into `null`: both are
falsy and neither is ever compared with `===` against a string in the
source, which is the only discrimination the script performs on them. -/
inductive JSVal where
  | null
  | bool (b : Bool)
  | num (lit : String)
  | str (s : String)
  | arr (elems : List JSVal)
  | obj (fields : List (String × JSVal))
deriving Repr

/-- JSON insignificant whitespace (RFC 8259), also the characters
`String.trim` removes. -/
def isJsonWs (c : Char) : Bool :=
  c = ' ' || c = '\t' || c = '\n' || c = '\r'

/-- Drop leading JSON whitespace. -/
def skipWs : List Char → List Char
  | [] => []
  | c :: cs => if isJsonWs c then skipWs cs else c :: cs

/-- Hexadecimal digit value. -/
def hexVal (c : Char) : Option Nat :=
  if '0' ≤ c ∧ c ≤ '9' then some (c.toNat - '0'.toNat)
  else if 'a' ≤ c ∧ c ≤ 'f' then some (c.toNat - 'a'.toNat + 10)
  else if 'A' ≤ c ∧ c ≤ 'F' then some (c.toNat - 'A'.toNat + 10)
  else none

/-- Lex the body of a JSON string after the opening quote, returning the
string and the rest of the input after the closing quote.  Escapes follow
RFC 8259; a `\u` escape denoting a lone surrogate is refused (Lean `Char`
cannot hold one; no property here exercises that corner). -/
def lexStr : Nat → List Char → Option (String × List Char)
  | 0, _ => none
  | _ + 1, [] => none
  | fuel + 1, c :: cs =>
    if c = '"' then some ("", cs)
    else if c = '\\' then
      match cs with
      | [] => none
      | e :: cs2 =>
        let esc : Option (Char × List Char) :=
          if e = '"' then some ('"', cs2)
          else if e = '\\' then some ('\\', cs2)
          else if e = '/' then some ('/', cs2)
          else if e = 'b' then some ('\x08', cs2)
          else if e = 'f' then some ('\x0c', cs2)
          else if e = 'n' then some ('\n', cs2)
          else if e = 'r' then some ('\r', cs2)
          else if e = 't' then some ('\t', cs2)
          else if e = 'u' then
            match cs2 with
            | h1 :: h2 :: h3 :: h4 :: cs3 =>
              match hexVal h1, hexVal h2, hexVal h3, hexVal h4 with
              | some a, some b, some c3, some d3 =>
                let n := ((a * 16 + b) * 16 + c3) * 16 + d3
                if n.isValidChar then some (Char.ofNat n, cs3) else none
              | _, _, _, _ => none
            | _ => none
          else none
        match esc with
        | none => none
        | some (ch, rest) =>
          (lexStr fuel rest).map (fun p => (String.singleton ch ++ p.1, p.2))
    else if c.toNat < 0x20 then none
    else (lexStr fuel cs).map (fun p => (String.singleton c ++ p.1, p.2))

/-- Lex a JSON string given the input after the opening quote. -/
def lexString (cs : List Char) : Option (String × List Char) :=
  lexStr (cs.length + 1) cs

/-- Lex an optional fraction part, returning its characters. -/
def lexFrac (cs : List Char) : Option (List Char × List Char) :=
  match cs with
  | '.' :: r =>
    let p := r.span Char.isDigit
    if p.1.isEmpty then none else some ('.' :: p.1, p.2)
  | _ => some ([], cs)

/-- Lex an optional exponent part, returning its characters. -/
def lexExp (cs : List Char) : Option (List Char × List Char) :=
  match cs with
  | e :: r =>
    if e = 'e' ∨ e = 'E' then
      let q :=
        match r with
        | c :: r2 => if c = '+' ∨ c = '-' then ([c], r2) else ([], r)
        | [] => ([], r)
      let p := q.2.span Char.isDigit
      if p.1.isEmpty then none else some (e :: (q.1 ++ p.1), p.2)
    else some ([], cs)
  | [] => some ([], [])

/-- Lex a JSON number per the RFC 8259 grammar, keeping the lexeme. -/
def lexNum (cs : List Char) : Option (String × List Char) :=
  let q := match cs with
    | '-' :: r => ("-", r)
    | _ => ("", cs)
  let ipart : Option (List Char × List Char) :=
    match q.2 with
    | '0' :: r => if (r.head?.map Char.isDigit).getD false then none else some (['0'], r)
    | c :: r =>
      if c.isDigit then
        let p := r.span Char.isDigit
        some (c :: p.1, p.2)
      else none
    | [] => none
  match ipart with
  | none => none
  | some (ip, r1) =>
    match lexFrac r1 with
    | none => none
    | some (fp, r2) =>
      match lexExp r2 with
      | none => none
      | some (ep, r3) => some (q.1 ++ String.mk (ip ++ fp ++ ep), r3)

mutual

/-- Parse one JSON value (fuel-based recursive descent, model of the
builtin `JSON.parse`). -/
def parseVal : Nat → List Char → Option (JSVal × List Char)
  | 0, _ => none
  | fuel + 1, cs =>
    match skipWs cs with
    | [] => none
    | '{' :: r =>
      match skipWs r with
      | '}' :: r2 => some (JSVal.obj [], r2)
      | _ => (parseMembers fuel r).map (fun p => (JSVal.obj p.1, p.2))
    | '[' :: r =>
      match skipWs r with
      | ']' :: r2 => some (JSVal.arr [], r2)
      | _ => (parseElems fuel r).map (fun p => (JSVal.arr p.1, p.2))
    | '"' :: r => (lexString r).map (fun p => (JSVal.str p.1, p.2))
    | 't' :: 'r' :: 'u' :: 'e' :: r => some (JSVal.bool true, r)
    | 'f' :: 'a' :: 'l' :: 's' :: 'e' :: r => some (JSVal.bool false, r)
    | 'n' :: 'u' :: 'l' :: 'l' :: r => some (JSVal.null, r)
    | c :: r =>
      if c = '-' ∨ c.isDigit then (lexNum (c :: r)).map (fun p => (JSVal.num p.1, p.2))
      else none

/-- Parse the members of a nonempty JSON object, consuming the closing
brace. -/
def parseMembers : Nat → List Char → Option (List (String × JSVal) × List Char)
  | 0, _ => none
  | fuel + 1, cs =>
    match skipWs cs with
    | '"' :: r =>
      match lexString r with
      | none => none
      | some (k, r2) =>
        match skipWs r2 with
        | ':' :: r3 =>
          match parseVal fuel r3 with
          | none => none
          | some (v, r4) =>
            match skipWs r4 with
            | ',' :: r5 => (parseMembers fuel r5).map (fun p => ((k, v) :: p.1, p.2))
            | '}' :: r5 => some ([(k, v)], r5)
            | _ => none
        | _ => none
    | _ => none

/-- Parse the elements of a nonempty JSON array, consuming the closing
bracket. -/
def parseElems : Nat → List Char → Option (List JSVal × List Char)
  | 0, _ => none
  | fuel + 1, cs =>
    match parseVal fuel cs with
    | none => none
    | some (v, r) =>
      match skipWs r with
      | ',' :: r2 => (parseElems fuel r2).map (fun p => (v :: p.1, p.2))
      | ']' :: r2 => some ([v], r2)
      | _ => none

end

/-- Does the first list lead the second (character-wise)? -/
def leadMatch : List Char → List Char → Bool
  | [], _ => true
  | _ :: _, [] => false
  | a :: as, b :: bs => a == b && leadMatch as bs

/-- JS `String.prototype.startsWith` for the strings the script tests. -/
def strStarts (s pre : String) : Bool := leadMatch pre.toList s.toList

/-- JS `String.prototype.endsWith` for the strings the script tests. -/
def strEnds (s post : String) : Bool := leadMatch post.toList.reverse s.toList.reverse

/-- JS `String.prototype.trim` (over the whitespace the script's data can
contain). -/
def jsTrim (s : String) : String :=
  String.mk (((s.toList.dropWhile isJsonWs).reverse.dropWhile isJsonWs).reverse)

/-- Model of the builtin `JSON.parse`: `none` models a thrown
`SyntaxError`. -/
def jsonParse (s : String) : Option JSVal :=
  match parseVal (s.length + 1) s.toList with
  | some (v, rest) => if (skipWs rest).isEmpty then some v else none
  | none => none

/-- Is a numeric literal's mantissa all zeros (the literal denotes `0`)? -/
def numLexIsZero (lit : String) : Bool :=
  ((lit.toList.takeWhile (fun c => c ≠ 'e' && c ≠ 'E')).filter Char.isDigit).all (· = '0')

/-- JS truthiness of a value. -/
def JSVal.truthy : JSVal → Bool
  | .null => false
  | .bool b => b
  | .num lit => !numLexIsZero lit
  | .str s => !(s == "")
  | .arr _ => true
  | .obj _ => true

mutual

/-- JS `String(v)` coercion.  A numeric literal is rendered as written
(canonical float formatting is not modelled; no property depends on it). -/
def JSVal.jsStr : JSVal → String
  | .null => "null"
  | .bool b => cond b "true" "false"
  | .num lit => lit
  | .str s => s
  | .arr xs => jsStrArr xs
  | .obj _ => "[object Object]"

/-- JS `Array.prototype.toString`: elements joined with commas, `null`
rendered empty. -/
def jsStrArr : List JSVal → String
  | [] => ""
  | [x] => jsStrElem x
  | x :: y :: xs => jsStrElem x ++ "," ++ jsStrArr (y :: xs)

/-- One array element under `Array.prototype.join`: `null` renders empty. -/
def jsStrElem : JSVal → String
  | .null => ""
  | .bool b => cond b "true" "false"
  | .num lit => lit
  | .str s => s
  | .arr xs => jsStrArr xs
  | .obj _ => "[object Object]"

end

/-- Last-occurrence field lookup (JS object literals from `JSON.parse` let a
later duplicate key win). -/
def lookupField : List (String × JSVal) → String → Option JSVal
  | [], _ => none
  | p :: ps, k =>
    match lookupField ps k with
    | some v => some v
    | none => if p.1 == k then some p.2 else none

/-- JS property read `v.k` on a non-null value: a missing property is
`undefined`, modelled as `.null` (both falsy, and the script never
distinguishes them). -/
def jsGetD (v : JSVal) (k : String) : JSVal :=
  match v with
  | .obj fs => (lookupField fs k).getD .null
  | _ => .null

/-- Outcome of one `fetch`: a network error (any rejection inside the
`try`) or an HTTP response with status and body text. -/
inductive FetchOutcome where
  | netError
  | response (status : Nat) (body : String)
deriving DecidableEq, Repr

/-- The network, as seen by the loader: each path yields one outcome. -/
def FetchEnv := String → FetchOutcome

/-- `Response.ok`: status in the inclusive range 200–299. -/
def statusOk (st : Nat) : Bool := 200 ≤ st && st ≤ 299

/-- The optional global `window.jsyaml`: absent, or a `load` function that
returns a value or throws. -/
def YamlEnv := Option (String → Except Unit JSVal)

/-- `tryFetch` from `assets/app.js` (lines 49–59): `null` on network error
or non-ok status, else the body text. -/
def tryFetchApp (env : FetchEnv) (path : String) : Option String :=
  match env path with
  | .netError => none
  | .response st body => if statusOk st then some body else none

/-- `parseMaybeJSON` from `assets/app.js` (lines 61–67): if the trimmed
text starts with a brace or bracket, `JSON.parse` it (`.error` models the
parse throwing), else return `null`. -/
def parseMaybeJSONApp (text : String) : Except Unit JSVal :=
  let t := jsTrim text
  if strStarts t "\x7b" || strStarts t "[" then
    match jsonParse t with
    | some v => .ok v
    | none => .error ()
  else .ok .null

/-- The body of the `try` block in `loadResumeData` of `assets/app.js`
(lines 80–101) for one candidate: `.ok (some v)` is `return v`,
`.ok none` is `continue`, `.error` is a thrown exception (which the
enclosing catch turns into `continue`). -/
def loadStepApp (yaml : YamlEnv) (p text : String) : Except Unit (Option JSVal) :=
  if strEnds p ".json" then
    match jsonParse text with
    | some obj => .ok (some obj)
    | none => .error ()
  else
    match parseMaybeJSONApp text with
    | .error _ => .error ()
    | .ok maybe =>
      if maybe.truthy then .ok (some maybe)
      else
        match yaml with
        | some load =>
          match load text with
          | .ok y => .ok (some y)
          | .error _ => .error ()
        | none => .ok none

/-- The candidate loop of `loadResumeData` in `assets/app.js` (lines
76–104) over an arbitrary candidate list; exhaustion returns `null`. -/
def loadFromApp (env : FetchEnv) (yaml : YamlEnv) : List String → JSVal
  | [] => .null
  | p :: rest =>
    match tryFetchApp env p with
    | none => loadFromApp env yaml rest
    | some text =>
      match loadStepApp yaml p text with
      | .ok (some v) => v
      | .ok none => loadFromApp env yaml rest
      | .error _ => loadFromApp env yaml rest

/-- The fixed candidate list of `assets/app.js` (lines 70–74). -/
def candidatesApp : List String :=
  ["resume.json", "/resume.json", "resume.yaml", "/resume.yaml", "resume.yml", "/resume.yml"]

/-- `loadResumeData` from `assets/app.js` (lines 69–105). -/
def loadResumeDataApp (env : FetchEnv) (yaml : YamlEnv) : JSVal :=
  loadFromApp env yaml candidatesApp

/-- `tryFetch` from the unnamed copy (lines 7–14); identical to the
`assets/app.js` version apart from logging. -/
def tryFetchP0 (env : FetchEnv) (path : String) : Option String :=
  match env path with
  | .netError => none
  | .response st body => if statusOk st then some body else none

/-- `parseMaybeJSON` from the unnamed copy (lines 16–22). -/
def parseMaybeJSONP0 (text : String) : Except Unit JSVal :=
  let t := jsTrim text
  if strStarts t "\x7b" || strStarts t "[" then
    match jsonParse t with
    | some v => .ok v
    | none => .error ()
  else .ok .null

/-- The body of the `try` block in `loadResumeData` of the unnamed copy
(lines 29–46) for one candidate. -/
def loadStepP0 (yaml : YamlEnv) (p text : String) : Except Unit (Option JSVal) :=
  if strEnds p ".json" then
    match jsonParse text with
    | some obj => .ok (some obj)
    | none => .error ()
  else
    match parseMaybeJSONP0 text with
    | .error _ => .error ()
    | .ok maybe =>
      if maybe.truthy then .ok (some maybe)
      else
        match yaml with
        | some load =>
          match load text with
          | .ok y => .ok (some y)
          | .error _ => .error ()
        | none => .ok none

/-- The candidate loop of `loadResumeData` in the unnamed copy (lines
26–47). -/
def loadFromP0 (env : FetchEnv) (yaml : YamlEnv) : List String → JSVal
  | [] => .null
  | p :: rest =>
    match tryFetchP0 env p with
    | none => loadFromP0 env yaml rest
    | some text =>
      match loadStepP0 yaml p text with
      | .ok (some v) => v
      | .ok none => loadFromP0 env yaml rest
      | .error _ => loadFromP0 env yaml rest

/-- The fixed candidate list of the unnamed copy (line 25). -/
def candidatesP0 : List String := ["resume.yaml", "resume.yml", "resume.json"]

/-- `loadResumeData` from the unnamed copy (lines 24–49). -/
def loadResumeDataP0 (env : FetchEnv) (yaml : YamlEnv) : JSVal :=
  loadFromP0 env yaml candidatesP0



/-- A DOM node.  `elem` carries tag, `className`, other attributes and
children; `textNode` models a `textContent` assignment or an appended
string; `rawHtml` models an `innerHTML` assignment (the script never reads
it back, so it is kept as the assigned string). -/
inductive Node where
  | elem (tag : String) (cls : String) (attrs : List (String × String)) (children : List Node)
  | textNode (s : String)
  | rawHtml (s : String)
deriving Repr

/-- The children produced by `make(tag, cls, content)` for a `content`
that is a JS data value: an array appends its truthy elements (coerced to
strings by `append`), anything else is assigned to `innerHTML` after
string coercion. -/
def makeContentJS (v : JSVal) : List Node :=
  match v with
  | .arr xs => xs.foldr (fun c acc => if c.truthy then Node.textNode c.jsStr :: acc else acc) []
  | _ => [Node.rawHtml v.jsStr]

/-- `make(tag, null, t)` for a string literal `t`: heading helper. -/
def h2Node (t : String) : Node := Node.elem "h2" "" [] [Node.rawHtml t]

/-- `linkify` from `assets/app.js` (lines 137–142): `null` for a falsy
url, else an anchor with the coerced url as `href` and the label (or the
url) as `textContent`. -/
def linkify (url label : JSVal) : Option Node :=
  if url.truthy then
    some (Node.elem "a" "" [("href", url.jsStr), ("target", "_blank"), ("rel", "noopener")]
      [Node.textNode (if label.truthy then label.jsStr else url.jsStr)])
  else none

/-- The separator node `make('span','dot','•')`. -/
def dotNode : Node := Node.elem "span" "dot" [] [Node.rawHtml "•"]

/-- The contacts-line children: the bits with a dot separator between
consecutive bits (`bits.forEach((b,i) => ...)` in `renderHeader`). -/
def dotJoin : List Node → List Node
  | [] => []
  | [b] => [b]
  | b :: b2 :: bs => b :: dotNode :: dotJoin (b2 :: bs)

/-- Characters removed by `String(phone).replace(/\s+/g,'')`: ASCII
whitespace and no-break space (other Unicode spaces are out of scope of
every property here). -/
def jsWsChar (c : Char) : Bool :=
  c = ' ' || c = '\t' || c = '\n' || c = '\r' || c = '\x0b' || c = '\x0c' || c = ' '

/-- `String(v).replace(/\s+/g,'')`. -/
def stripJsWs (s : String) : String :=
  String.mk (s.toList.filter (fun c => !jsWsChar c))

/-- JS `Array.prototype.join` over values (`null` renders empty). -/
def jsArrayJoin (sep : String) (xs : List JSVal) : String :=
  String.intercalate sep (xs.map jsStrElem)

/-- `[…].filter(Boolean).join(sep)` over JS values. -/
def filterJoin (sep : String) (xs : List JSVal) : String :=
  String.intercalate sep ((xs.filter JSVal.truthy).map JSVal.jsStr)

/-- The `d.links.forEach` loop body of `renderHeader`: reading `l.url` on a
`null` entry throws a `TypeError`, modelled by `.error`; a falsy url makes
`linkify` return `null`, which is not pushed. -/
def linkBitsE : List JSVal → Except Unit (List Node)
  | [] => .ok []
  | l :: ls =>
    match l with
    | .null => .error ()
    | _ =>
      match linkBitsE ls with
      | .error er => .error er
      | .ok rest =>
        .ok ((match linkify (jsGetD l "url") (jsGetD l "label") with
              | some a => [a]
              | none => []) ++ rest)

/-- The `bits` array of `renderHeader` (lines 151–161): location span,
phone `tel:` link with whitespace-stripped target, `mailto:` email link,
then the extra links. -/
def contactBitsE (d : JSVal) : Except Unit (List Node) :=
  let bits0 : List Node :=
    if (jsGetD d "location").truthy then
      [Node.elem "span" "" [] (makeContentJS (jsGetD d "location"))]
    else []
  let bits1 : List Node := bits0 ++
    (if (jsGetD d "phone").truthy then
      match linkify (.str ("tel:" ++ stripJsWs (jsGetD d "phone").jsStr)) (jsGetD d "phone") with
      | some a => [a]
      | none => []
     else [])
  let bits2 : List Node := bits1 ++
    (if (jsGetD d "email").truthy then
      match linkify (.str ("mailto:" ++ (jsGetD d "email").jsStr)) (jsGetD d "email") with
      | some a => [a]
      | none => []
     else [])
  match jsGetD d "links" with
  | .arr ls =>
    match linkBitsE ls with
    | .error er => .error er
    | .ok lb => .ok (bits2 ++ lb)
  | _ => .ok bits2

/-- The `who` block of `renderHeader` (lines 145–148). -/
def whoNode (d : JSVal) : Node :=
  Node.elem "div" "who" []
    ([Node.elem "h1" "" [] (makeContentJS (if (jsGetD d "name").truthy then jsGetD d "name" else .str "Your Name"))]
      ++ (if (jsGetD d "title").truthy then [Node.elem "div" "title" [] (makeContentJS (jsGetD d "title"))] else []))

/-- The decorative SVG block appended to the header (line 168). -/
def svgDeco : String :=
  "<svg width=\"49\" height=\"49\" viewBox=\"0 0 49 49\" fill=\"none\" xmlns=\"http://www.w3.org/2000/svg\"><path fill=\"currentColor\" d=\"M17 0h15v15H17zM34 17h15v15H34z\"></path><path opacity=\".2\" fill=\"currentColor\" d=\"M34 34h15v15H34zM17 17h15v15H17zM0 0h15v15H0z\"></path><path fill=\"currentColor\" d=\"M34 0h15v15H34z\"></path></svg>"

/-- The `deco` node with its `aria-hidden` attribute (lines 168–169). -/
def decoNode : Node := Node.elem "div" "deco" [("aria-hidden", "true")] [Node.rawHtml svgDeco]

/-- `renderHeader` from `assets/app.js` (lines 144–172); throws exactly
when the links loop throws. -/
def renderHeaderE (d : JSVal) : Except Unit Node :=
  match contactBitsE d with
  | .error er => .error er
  | .ok bits =>
    .ok (Node.elem "div" "hdr" [] [whoNode d, Node.elem "div" "contacts-line" [] (dotJoin bits), decoNode])

/-- A primitive's identity under the JS `Set` membership relation
(SameValueZero).  Objects and arrays compare by reference; every object in
one `JSON.parse` result is a distinct reference, so they never collide and
get no key. -/
inductive PrimKey where
  | pnull
  | pbool (b : Bool)
  | pnum (lit : String)
  | pstr (s : String)
deriving DecidableEq, Repr

/-- The `Set` key of a value, when it is a primitive. -/
def primKey : JSVal → Option PrimKey
  | .null => some .pnull
  | .bool b => some (.pbool b)
  | .num lit => some (.pnum lit)
  | .str s => some (.pstr s)
  | .arr _ => none
  | .obj _ => none

/-- `[...new Set(all)]`: first-seen order, primitives de-duplicated by
value, objects and arrays (distinct references) all kept. -/
def setDedupGo : List JSVal → List PrimKey → List JSVal
  | [], _ => []
  | x :: xs, seen =>
    match primKey x with
    | none => x :: setDedupGo xs seen
    | some k => if k ∈ seen then setDedupGo xs seen else x :: setDedupGo xs (k :: seen)

/-- `[...new Set(all)]` on an empty seen-set. -/
def setDedup (xs : List JSVal) : List JSVal := setDedupGo xs []

/-- The `all` array of `renderSkills` (lines 179–184): concatenation of
`s.items` over the categories whose `s` is truthy and whose `items` is an
array. -/
def collectSkillItems : List JSVal → List JSVal
  | [] => []
  | s :: ss =>
    (if s.truthy then
      match jsGetD s "items" with
      | .arr xs => xs
      | _ => []
     else []) ++ collectSkillItems ss

/-- `renderSkills` from `assets/app.js` (lines 174–188): flattened,
de-duplicated, comma-joined single list. -/
def renderSkills (skills : JSVal) : Option Node :=
  match skills with
  | .arr items =>
    if items.isEmpty then none
    else
      some (Node.elem "section" "sec" []
        [h2Node "Skills",
         Node.elem "div" "muted" [] [Node.rawHtml (jsArrayJoin ", " (setDedup (collectSkillItems items)))]])
  | _ => none

/-- One entry of `renderExperience` (lines 194–207); a falsy entry is
skipped. -/
def expItem (j : JSVal) : List Node :=
  if j.truthy then
    let role := filterJoin ", " [jsGetD j "role", jsGetD j "company"]
    let dur := filterJoin " - " [jsGetD j "start", jsGetD j "end"]
    let meta := filterJoin " • " [JSVal.str dur, jsGetD j "location"]
    let hl : List Node :=
      match jsGetD j "highlights" with
      | .arr hs =>
        if hs.isEmpty then []
        else [Node.elem "ul" "tight muted" [] (hs.map (fun h => Node.elem "li" "" [] (makeContentJS h)))]
      | _ => []
    [Node.elem "div" "item" []
      ([Node.elem "div" "role" [] [Node.rawHtml role]]
        ++ (if meta == "" then [] else [Node.elem "div" "meta" [] [Node.rawHtml meta]])
        ++ hl)]
  else []

/-- `renderExperience` from `assets/app.js` (lines 190–209). -/
def renderExperience (exp : JSVal) : Option Node :=
  match exp with
  | .arr jobs =>
    if jobs.isEmpty then none
    else some (Node.elem "section" "sec" [] (h2Node "Employment history" :: (jobs.map expItem).flatten))
  | _ => none

/-- Map a fallible item renderer over a list, left to right, stopping at
the first thrown exception (the `forEach` bodies below can throw). -/
def mapE (f : JSVal → Except Unit Node) : List JSVal → Except Unit (List Node)
  | [] => .ok []
  | x :: xs =>
    match f x with
    | .error er => .error er
    | .ok n =>
      match mapE f xs with
      | .error er => .error er
      | .ok ns => .ok (n :: ns)

/-- One entry of `renderEducation` (lines 215–222); reading `e.degree` on a
`null` entry throws. -/
def eduItemE (e : JSVal) : Except Unit Node :=
  match e with
  | .null => .error ()
  | _ =>
    let role := filterJoin " — " [jsGetD e "degree", jsGetD e "school"]
    let meta := filterJoin " • " [jsGetD e "year", jsGetD e "location"]
    .ok (Node.elem "div" "item" []
      ([Node.elem "div" "role" [] [Node.rawHtml role]]
        ++ (if meta == "" then [] else [Node.elem "div" "meta" [] [Node.rawHtml meta]])
        ++ (if (jsGetD e "note").truthy then [Node.elem "div" "" [] (makeContentJS (jsGetD e "note"))] else [])))

/-- `renderEducation` from `assets/app.js` (lines 211–224). -/
def renderEducationE (ed : JSVal) : Except Unit (Option Node) :=
  match ed with
  | .arr es =>
    if es.isEmpty then .ok none
    else
      match mapE eduItemE es with
      | .error er => .error er
      | .ok items => .ok (some (Node.elem "section" "sec" [] (h2Node "Education" :: items)))
  | _ => .ok none

/-- `renderSummary` from `assets/app.js` (lines 226–232). -/
def renderSummary (txt : JSVal) : Option Node :=
  if txt.truthy then
    some (Node.elem "section" "sec" []
      [h2Node "Professional summary", Node.elem "div" "muted" [] (makeContentJS txt)])
  else none

/-- One entry of `renderCerts` (lines 238–244); reading `c.name` on a
`null` entry throws. -/
def certItemE (c : JSVal) : Except Unit Node :=
  match c with
  | .null => .error ()
  | _ =>
    let nameContent := if (jsGetD c "name").truthy then jsGetD c "name" else JSVal.str ""
    let meta := filterJoin " • " [jsGetD c "issuer", jsGetD c "year"]
    .ok (Node.elem "div" "item" []
      ([Node.elem "div" "role" [] (makeContentJS nameContent)]
        ++ (if meta == "" then [] else [Node.elem "div" "meta" [] [Node.rawHtml meta]])))

/-- `renderCerts` from `assets/app.js` (lines 234–246). -/
def renderCertsE (list : JSVal) : Except Unit (Option Node) :=
  match list with
  | .arr cs =>
    if cs.isEmpty then .ok none
    else
      match mapE certItemE cs with
      | .error er => .error er
      | .ok items => .ok (some (Node.elem "section" "sec" [] (h2Node "Certifications" :: items)))
  | _ => .ok none

/-- The body sections of `renderResumeTheme1` (lines 255–261), in source
order; the summary, skills and experience renderers are total, so
evaluating the two fallible renderers first in the model preserves both
the value and the thrown/not-thrown outcome of the source's left-to-right
evaluation. -/
def sectionsT1E (d : JSVal) : Except Unit (List Node) :=
  match renderEducationE (jsGetD d "education") with
  | .error er => .error er
  | .ok s4 =>
    match renderCertsE (jsGetD d "certifications") with
    | .error er => .error er
    | .ok s5 =>
      .ok ([renderSummary (jsGetD d "summary"), renderSkills (jsGetD d "skills"),
            renderExperience (jsGetD d "experience"), s4, s5].filterMap id)

/-- `renderResumeTheme1` (lines 248–264) as the resulting root children:
`.ok` is the completed render, `.error p` is an exception thrown with the
container left holding `p` (the root is cleared first, the header is
appended, then the sections array is evaluated). -/
def renderResumeTheme1 (d : JSVal) : Except (List Node) (List Node) :=
  match renderHeaderE d with
  | .error _ => .error []
  | .ok h =>
    match sectionsT1E d with
    | .error _ => .error [h]
    | .ok secs => .ok (h :: secs)

/-- The pill spans of `renderSkillsPills` (lines 270–275). -/
def pillsOf (ss : List JSVal) : List Node :=
  (ss.map (fun s =>
    if s.truthy then
      match jsGetD s "items" with
      | .arr xs => xs.map (fun it => Node.elem "span" "pill" [] (makeContentJS it))
      | _ => []
    else [])).flatten

/-- `renderSkillsPills` from `assets/app.js` (lines 266–278). -/
def renderSkillsPills (skills : JSVal) : Option Node :=
  match skills with
  | .arr ss =>
    if ss.isEmpty then none
    else some (Node.elem "section" "sec skills-pills" []
      [h2Node "Skills", Node.elem "div" "" [] (pillsOf ss)])
  | _ => none

/-- The right-column blocks of `renderResumeTheme2` (lines 293–298). -/
def rightBlocksT2E (d : JSVal) : Except Unit (List Node) :=
  match renderEducationE (jsGetD d "education") with
  | .error er => .error er
  | .ok s4 =>
    match renderCertsE (jsGetD d "certifications") with
    | .error er => .error er
    | .ok s5 =>
      .ok ([renderSummary (jsGetD d "summary"), renderExperience (jsGetD d "experience"), s4, s5].filterMap id)

/-- `renderResumeTheme2` (lines 280–304): two-column body; the body
section is appended to the root only after all blocks are built, so an
exception leaves just the header in the container. -/
def renderResumeTheme2 (d : JSVal) : Except (List Node) (List Node) :=
  match renderHeaderE d with
  | .error _ => .error []
  | .ok h =>
    let aside := Node.elem "aside" "aside" [] ([renderSkillsPills (jsGetD d "skills")].filterMap id)
    match rightBlocksT2E d with
    | .error _ => .error [h]
    | .ok rbs =>
      .ok [h, Node.elem "section" "sec" []
        [Node.elem "div" "columns" [] [aside, Node.elem "div" "main" [] rbs]]]

/-- `renderHeaderT3` from `assets/app.js` (lines 306–313). -/
def renderHeaderT3 (d : JSVal) : Node :=
  let joined := filterJoin ", " [jsGetD d "location", jsGetD d "phone", jsGetD d "email"]
  Node.elem "div" "hdr" []
    [Node.elem "div" "who" []
      [Node.elem "h1" "" [] (makeContentJS (if (jsGetD d "name").truthy then jsGetD d "name" else .str "Your Name")),
       Node.elem "div" "subline" [] (if joined == "" then [] else [Node.textNode joined])]]

/-- One entry of `renderExperienceT3` (lines 319–333). -/
def expItemT3 (j : JSVal) : List Node :=
  if j.truthy then
    let dur := filterJoin " - " [jsGetD j "start", jsGetD j "end"]
    let roleLine := filterJoin ", " [jsGetD j "role", JSVal.str dur]
    let sub := filterJoin ", " [jsGetD j "company", jsGetD j "location"]
    let hl : List Node :=
      match jsGetD j "highlights" with
      | .arr hs =>
        if hs.isEmpty then []
        else [Node.elem "ul" "tight muted" [] (hs.map (fun h => Node.elem "li" "" [] (makeContentJS h)))]
      | _ => []
    [Node.elem "div" "item" []
      ((if roleLine == "" then [] else [Node.elem "div" "role" [] [Node.rawHtml roleLine]])
        ++ (if sub == "" then [] else [Node.elem "div" "submeta" [] [Node.rawHtml sub]])
        ++ hl)]
  else []

/-- `renderExperienceT3` from `assets/app.js` (lines 315–335). -/
def renderExperienceT3 (exp : JSVal) : Option Node :=
  match exp with
  | .arr jobs =>
    if jobs.isEmpty then none
    else some (Node.elem "section" "sec" [] (h2Node "Employment history" :: (jobs.map expItemT3).flatten))
  | _ => none

/-- One entry of `renderEducationT3` (lines 341–348); reading `e.degree`
on a `null` entry throws. -/
def eduItemT3E (e : JSVal) : Except Unit Node :=
  match e with
  | .null => .error ()
  | _ =>
    let head := filterJoin ", " [jsGetD e "degree", jsGetD e "year"]
    let sub := filterJoin ", " [jsGetD e "school", jsGetD e "location"]
    .ok (Node.elem "div" "item" []
      ((if head == "" then [] else [Node.elem "div" "role" [] [Node.rawHtml head]])
        ++ (if sub == "" then [] else [Node.elem "div" "submeta" [] [Node.rawHtml sub]])
        ++ (if (jsGetD e "note").truthy then [Node.elem "div" "" [] (makeContentJS (jsGetD e "note"))] else [])))

/-- `renderEducationT3` from `assets/app.js` (lines 337–351). -/
def renderEducationT3E (ed : JSVal) : Except Unit (Option Node) :=
  match ed with
  | .arr es =>
    if es.isEmpty then .ok none
    else
      match mapE eduItemT3E es with
      | .error er => .error er
      | .ok items => .ok (some (Node.elem "section" "sec" [] (h2Node "Education" :: items)))
  | _ => .ok none

/-- The body sections of `renderResumeTheme3` (lines 358–364). -/
def sectionsT3E (d : JSVal) : Except Unit (List Node) :=
  match renderEducationT3E (jsGetD d "education") with
  | .error er => .error er
  | .ok s4 =>
    match renderCertsE (jsGetD d "certifications") with
    | .error er => .error er
    | .ok s5 =>
      .ok ([renderSummary (jsGetD d "summary"), renderSkills (jsGetD d "skills"),
            renderExperienceT3 (jsGetD d "experience"), s4, s5].filterMap id)

/-- `renderResumeTheme3` (lines 353–366); its header never throws. -/
def renderResumeTheme3 (d : JSVal) : Except (List Node) (List Node) :=
  let h := renderHeaderT3 d
  match sectionsT3E d with
  | .error _ => .error [h]
  | .ok secs => .ok (h :: secs)

/-- `urlParams.get('theme') || 't1'`: a missing or empty query value
falls to the default. -/
def themeQueryDefault (q : Option String) : JSVal :=
  match q with
  | some s => if s == "" then .str "t1" else .str s
  | none => .str "t1"

/-- The resolved theme of `renderResume` (lines 369–374): the value of
`(d && d.theme) || urlParams.get('theme') || 't1'` run through the `norm`
normaliser (which maps a falsy value to `'t1'`). -/
def resolveNorm (d : JSVal) (q : Option String) : JSVal :=
  let v := if d.truthy then jsGetD d "theme" else d
  let th := if v.truthy then v else themeQueryDefault q
  if th.truthy then th else .str "t1"

/-- JS strict equality of a value against a string literal. -/
def isStrEq (v : JSVal) (s : String) : Bool :=
  match v with
  | .str t => t == s
  | _ => false

/-- The outcome of `renderResume`: the class assigned to the root, and the
theme renderer's result. -/
structure RenderOutcome where
  className : String
  result : Except (List Node) (List Node)
deriving Repr

/-- `renderResume` from `assets/app.js` (lines 368–385). -/
def renderResume (d : JSVal) (q : Option String) : RenderOutcome :=
  let norm := resolveNorm d q
  let cls := "resume theme-" ++ norm.jsStr
  if isStrEq norm "t2" then ⟨cls, renderResumeTheme2 d⟩
  else if isStrEq norm "t3" then ⟨cls, renderResumeTheme3 d⟩
  else ⟨cls, renderResumeTheme1 d⟩

/-- The page state after `bootstrap`: whether the dev note is hidden, the
root's class, and the root container's children. -/
structure PageOutcome where
  devNoteHidden : Bool
  className : String
  rootChildren : List Node
deriving Repr

/-- `bootstrap` from `assets/app.js` (lines 107–123): load, render when
truthy data arrived, and on any exception show the note; the catch does
not clear the container, so it keeps whatever the renderer had appended. -/
def bootstrapApp (env : FetchEnv) (yaml : YamlEnv) (q : Option String)
    (init : List Node) (initCls : String) : PageOutcome :=
  let data := loadResumeDataApp env yaml
  if data.truthy then
    let r := renderResume data q
    match r.result with
    | .ok ns => ⟨true, r.className, ns⟩
    | .error part => ⟨false, r.className, part⟩
  else ⟨false, initCls, init⟩

/-- The container contents after a theme renderer ran, completed or not. -/
def renderedChildren (r : Except (List Node) (List Node)) : List Node :=
  match r with
  | .ok ns => ns
  | .error p => p

/-- Did the renderer throw? -/
def exceptIsError (r : Except (List Node) (List Node)) : Bool :=
  match r with
  | .error _ => true
  | .ok _ => false

/-- The heading of a section node: its first child h2's markup, when the
node is a section starting with an h2. -/
def sectionHeading : Node → Option String
  | .elem "section" _ _ (.elem "h2" _ _ [.rawHtml t] :: _) => some t
  | _ => none

/-- Does the children list contain a section with the given heading? -/
def listHasSection (ns : List Node) (t : String) : Bool :=
  ns.any (fun n => sectionHeading n == some t)

/-- Is a node the contact separator dot? -/
def isDot : Node → Bool
  | .elem "span" "dot" [] [.rawHtml t] => t == "•"
  | _ => false

/-- Is a value a nonempty array (a present, nonempty backing list)? -/
def isNonemptyArr : JSVal → Bool
  | .arr xs => !xs.isEmpty
  | _ => false

/-- Remove a field from an object's field list. -/
def removeField (fs : List (String × JSVal)) (k : String) : List (String × JSVal) :=
  fs.filter (fun p => p.1 != k)

/-- A skills value built from plain string categories, as in the data
model (each category an object with an `items` list of strings). -/
def mkSkillsVal (cats : List (List String)) : JSVal :=
  .arr (cats.map (fun c => .obj [("items", .arr (c.map JSVal.str))]))

/-- First-seen-order, value-based deduplication of strings with an
accumulator of already-seen strings: the specification's description of
the single-column skills list. -/
def dedupStrGo : List String → List String → List String
  | [], _ => []
  | x :: xs, seen => if x ∈ seen then dedupStrGo xs seen else x :: dedupStrGo xs (x :: seen)

/-- First-seen-order, value-based deduplication of strings. -/
def dedupFirstSeenStr (l : List String) : List String := dedupStrGo l []

/-- Does one candidate fail for the `assets/app.js` loader: fetch miss
(network error or non-ok status), parse throw, or a non-JSON-looking body
with no YAML parser available? -/
def candFailsApp (env : FetchEnv) (yaml : YamlEnv) (p : String) : Bool :=
  match tryFetchApp env p with
  | none => true
  | some text =>
    match loadStepApp yaml p text with
    | .ok (some _) => false
    | _ => true

/-- An environment in which every path is missing. -/
def envAll404 : FetchEnv := fun _ => .response 404 ""

/-- Only `resume.yaml` exists and holds the valid JSON scalar `5`. -/
def envC1 : FetchEnv := fun p =>
  if p = "resume.yaml" then .response 200 "5" else .response 404 ""

/-- Only `resume.yaml` exists and holds a JSON object. -/
def envC1W : FetchEnv := fun p =>
  if p = "resume.yaml" then .response 200 "\x7b\"a\":1\x7d" else .response 404 ""

/-- Only `resume.json` exists and holds the valid JSON document `null`. -/
def envC2 : FetchEnv := fun p =>
  if p = "resume.json" then .response 200 "null" else .response 404 ""

/-- A record that renders a header and then throws in `renderEducation`
(a `null` education entry). -/
def bodyC6 : String := "\x7b\"name\":\"A\",\"education\":[null]\x7d"

/-- Only `resume.json` exists and holds `bodyC6`. -/
def envC6 : FetchEnv := fun p =>
  if p = "resume.json" then .response 200 bodyC6 else .response 404 ""

/-- `resume.json` and `resume.yaml` both exist with different objects. -/
def envC10 : FetchEnv := fun p =>
  if p = "resume.json" then .response 200 "\x7b\"a\":\"x\"\x7d"
  else if p = "resume.yaml" then .response 200 "\x7b\"a\":\"y\"\x7d"
  else .response 404 ""

/-- A record with every contact field present and one extra link. -/
def dC8 : JSVal :=
  .obj [("location", .str "Berlin"), ("phone", .str "+49 30 1"), ("email", .str "a@x.com"),
        ("links", .arr [.obj [("url", .str "https://u"), ("label", .str "L")]])]

/-- The contact-line entries as the specification describes them: exactly
the truthy contact fields in order — a location span, a `tel:` anchor on
the whitespace-stripped phone value showing the original value, a
`mailto:` anchor for the email, then the links — and nothing else. -/
def specContactBits (d : JSVal) : List Node :=
  (if (jsGetD d "location").truthy then
    [Node.elem "span" "" [] (makeContentJS (jsGetD d "location"))] else [])
  ++ (if (jsGetD d "phone").truthy then
    [Node.elem "a" ""
      [("href", "tel:" ++ stripJsWs (jsGetD d "phone").jsStr),
       ("target", "_blank"), ("rel", "noopener")]
      [Node.textNode (jsGetD d "phone").jsStr]] else [])
  ++ (if (jsGetD d "email").truthy then
    [Node.elem "a" ""
      [("href", "mailto:" ++ (jsGetD d "email").jsStr),
       ("target", "_blank"), ("rel", "noopener")]
      [Node.textNode (jsGetD d "email").jsStr]] else [])
  ++ (match jsGetD d "links" with
      | JSVal.arr ls => ls.filterMap (fun l => linkify (jsGetD l "url") (jsGetD l "label"))
      | _ => [])

/-- Sanity check: the parser accepts a scalar document. -/
theorem jsonParse_scalar : jsonParse "5" = some (JSVal.num "5") := by rfl

/-- Sanity check: the parser accepts the document `null`. -/
theorem jsonParse_nullDoc : jsonParse "null" = some JSVal.null := by rfl

/-- Sanity check: the parser accepts a small object. -/
theorem jsonParse_objDoc :
    jsonParse "\x7b\"a\":\"x\"\x7d" = some (JSVal.obj [("a", JSVal.str "x")]) := by rfl

/-- Sanity check: the parser accepts an array holding `null`. -/
theorem jsonParse_arrNull : jsonParse "[null]" = some (JSVal.arr [JSVal.null]) := by rfl

/-- Sanity check: the parser refuses an unterminated object. -/
theorem jsonParse_openBrace : jsonParse "\x7b" = none := by rfl

/-- Sanity check: surrounding whitespace and numeric forms are accepted. -/
theorem jsonParse_wsNums :
    jsonParse " [1, 2.5e3] " = some (JSVal.arr [JSVal.num "1", JSVal.num "2.5e3"]) := by rfl

/-- C1 (amended): with every earlier candidate answering a non-success
status, a candidate that answers successfully with a body that parses as
JSON is returned by the loader provided the candidate ends in `.json`, or
the body looks like JSON to `parseMaybeJSON` (trims to a brace or bracket)
and parses to a truthy value; the position of the candidate in the list is
arbitrary.  (The unamended claim fails for a valid-JSON scalar body at a
non-`.json` candidate when no YAML parser is present.) -/
theorem c1_load_first_valid_json
    (env : FetchEnv) (yaml : YamlEnv) (pre rest : List String) (p body : String) (v : JSVal)
    (hpre : ∀ q ∈ pre, ∃ st b, env q = .response st b ∧ statusOk st = false)
    (hok : ∃ st, env p = .response st body ∧ statusOk st = true)
    (hparse : (strEnds p ".json" = true ∧ jsonParse body = some v)
      ∨ (strEnds p ".json" = false ∧ parseMaybeJSONApp body = .ok v ∧ v.truthy = true)) :
    loadFromApp env yaml (pre ++ p :: rest) = v := by
  induction pre with
  | nil =>
    obtain ⟨st, hp, hst⟩ := hok
    have htf : tryFetchApp env p = some body := by simp [tryFetchApp, hp, hst]
    rcases hparse with ⟨hj, hv⟩ | ⟨hj, hpm, ht⟩
    · simp [loadFromApp, htf, loadStepApp, hj, hv]
    · simp [loadFromApp, htf, loadStepApp, hj, hpm, ht]
  | cons q pre ih =>
    obtain ⟨st, b, hq, hst⟩ := hpre q (by simp)
    have htf : tryFetchApp env q = none := by simp [tryFetchApp, hq, hst]
    simpa [loadFromApp, htf] using ih (fun r hr => hpre r (by simp [hr]))

/-- C1 witness: earlier candidates `resume.json` and `/resume.json` answer
404, `resume.yaml` holds a JSON object, so the loader returns it. -/
theorem c1_witness :
    loadResumeDataApp envC1W none = JSVal.obj [("a", JSVal.num "1")] :=
  c1_load_first_valid_json envC1W none ["resume.json", "/resume.json"]
    ["/resume.yaml", "resume.yml", "/resume.yml"] "resume.yaml" "\x7b\"a\":1\x7d"
    (JSVal.obj [("a", JSVal.num "1")])
    (by intro q hq
        rcases List.mem_cons.mp hq with rfl | hq2
        · exact ⟨404, "", rfl, rfl⟩
        · rcases List.mem_cons.mp hq2 with rfl | h3
          · exact ⟨404, "", rfl, rfl⟩
          · cases h3)
    ⟨200, rfl, by decide⟩
    (Or.inr ⟨by decide, rfl, rfl⟩)

/-- C1 counterexample: every earlier candidate 404s, exactly one candidate
(`resume.yaml`) exists and its body `5` is valid JSON, yet the loader
(with no YAML parser present) returns `null`, not the parsed content. -/
theorem c1_counterexample :
    tryFetchApp envC1 "resume.json" = none
    ∧ tryFetchApp envC1 "/resume.json" = none
    ∧ envC1 "resume.yaml" = .response 200 "5"
    ∧ jsonParse "5" = some (JSVal.num "5")
    ∧ (∀ p ∈ (["/resume.yaml", "resume.yml", "/resume.yml"] : List String),
        envC1 p = .response 404 "")
    ∧ loadResumeDataApp envC1 none = JSVal.null
    ∧ JSVal.null ≠ JSVal.num "5" :=
  ⟨rfl, rfl, rfl, rfl, by decide, rfl, fun h => JSVal.noConfusion h⟩

/-- C2 (amended): every per-candidate failure is non-fatal and the loader
advances past it; when every candidate fails the loader returns `null`;
and conversely a `null` result means either that every candidate failed or
that some candidate succeeded with the JSON document `null`, which is
returned as-is and coincides with the no-data signal.  (The loader is a
total function: no exception reaches the caller.) -/
theorem c2_failures_nonfatal (env : FetchEnv) (yaml : YamlEnv) :
    (∀ p rest, candFailsApp env yaml p = true →
        loadFromApp env yaml (p :: rest) = loadFromApp env yaml rest)
    ∧ (∀ cs, (∀ p ∈ cs, candFailsApp env yaml p = true) →
        loadFromApp env yaml cs = JSVal.null)
    ∧ (∀ cs, loadFromApp env yaml cs = JSVal.null →
        (∀ p ∈ cs, candFailsApp env yaml p = true)
        ∨ ∃ p text, p ∈ cs ∧ tryFetchApp env p = some text
            ∧ loadStepApp yaml p text = .ok (some JSVal.null)) := by
  have hadv : ∀ p rest, candFailsApp env yaml p = true →
      loadFromApp env yaml (p :: rest) = loadFromApp env yaml rest := by
    intro p rest h
    cases htf : tryFetchApp env p with
    | none => simp [loadFromApp, htf]
    | some text =>
      cases hst : loadStepApp yaml p text with
      | error er => simp [loadFromApp, htf, hst]
      | ok o =>
        cases o with
        | none => simp [loadFromApp, htf, hst]
        | some v => simp [candFailsApp, htf, hst] at h
  have hexh : ∀ cs, (∀ p ∈ cs, candFailsApp env yaml p = true) →
      loadFromApp env yaml cs = JSVal.null := by
    intro cs
    induction cs with
    | nil => intro _; rfl
    | cons p rest ih =>
      intro h
      rw [hadv p rest (h p (by simp))]
      exact ih (fun r hr => h r (by simp [hr]))
  refine ⟨hadv, hexh, ?_⟩
  intro cs
  induction cs with
  | nil => intro _; exact Or.inl (by simp)
  | cons p rest ih =>
    intro h
    by_cases hf : candFailsApp env yaml p = true
    · rw [hadv p rest hf] at h
      rcases ih h with hall | ⟨r, text, hr, h1, h2⟩
      · refine Or.inl ?_
        intro r hr
        rcases List.mem_cons.mp hr with rfl | hr2
        · exact hf
        · exact hall r hr2
      · exact Or.inr ⟨r, text, by simp [hr], h1, h2⟩
    · cases htf : tryFetchApp env p with
      | none => exact absurd (by simp [candFailsApp, htf]) hf
      | some text =>
        cases hst : loadStepApp yaml p text with
        | error er => exact absurd (by simp [candFailsApp, htf, hst]) hf
        | ok o =>
          cases o with
          | none => exact absurd (by simp [candFailsApp, htf, hst]) hf
          | some v =>
            have hv : loadFromApp env yaml (p :: rest) = v := by
              simp [loadFromApp, htf, hst]
            rw [hv] at h
            exact Or.inr ⟨p, text, by simp, htf, by rw [hst, h]⟩

/-- C2 witness: with every candidate missing, the loader over the full
candidate list returns `null`. -/
theorem c2_witness : loadFromApp envAll404 none candidatesApp = JSVal.null :=
  (c2_failures_nonfatal envAll404 none).2.1 candidatesApp (by decide)

/-- C2 counterexample: the first candidate `resume.json` exists, fetches
successfully and parses successfully (so no candidate failed), yet the
loader returns `null`, the no-data signal — the body is the valid JSON
document `null`. -/
theorem c2_counterexample :
    loadResumeDataApp envC2 none = JSVal.null
    ∧ candFailsApp envC2 none "resume.json" = false
    ∧ "resume.json" ∈ candidatesApp
    ∧ tryFetchApp envC2 "resume.json" = some "null"
    ∧ loadStepApp none "resume.json" "null" = .ok (some JSVal.null) :=
  ⟨rfl, rfl, by decide, rfl, rfl⟩

/-- C10 (amended): the two copies share the per-candidate logic — over any
common candidate list the two loaders agree for every environment — but
their fixed candidate lists differ (`assets/app.js` tries the six
json-first paths, the unnamed copy the three yaml-first paths), so the
full loaders are not extensionally equal. -/
theorem c10_loaders_same_step_different_candidates :
    (∀ env yaml cs, loadFromApp env yaml cs = loadFromP0 env yaml cs)
    ∧ candidatesApp ≠ candidatesP0 := by
  constructor
  · intro env yaml cs
    induction cs with
    | nil => rfl
    | cons p rest ih =>
      have e1 : tryFetchP0 env p = tryFetchApp env p := rfl
      have e2 : ∀ t, loadStepP0 yaml p t = loadStepApp yaml p t := fun _ => rfl
      cases htf : tryFetchApp env p with
      | none => simp [loadFromApp, loadFromP0, e1, htf, ih]
      | some text =>
        cases hst : loadStepApp yaml p text with
        | error er => simp [loadFromApp, loadFromP0, e1, e2, htf, hst, ih]
        | ok o =>
          cases o with
          | none => simp [loadFromApp, loadFromP0, e1, e2, htf, hst, ih]
          | some v => simp [loadFromApp, loadFromP0, e1, e2, htf, hst]
  · decide

/-- C10 counterexample: with both `resume.json` and `resume.yaml` present
holding different objects, the `assets/app.js` loader returns the json
file's record and the unnamed copy returns the yaml file's record, and the
two results differ (they also attempted different first candidates). -/
theorem c10_counterexample :
    loadResumeDataApp envC10 none = JSVal.obj [("a", JSVal.str "x")]
    ∧ loadResumeDataP0 envC10 none = JSVal.obj [("a", JSVal.str "y")]
    ∧ loadResumeDataApp envC10 none ≠ loadResumeDataP0 envC10 none := by
  refine ⟨rfl, rfl, ?_⟩
  intro h
  rw [show loadResumeDataApp envC10 none = JSVal.obj [("a", JSVal.str "x")] from rfl,
      show loadResumeDataP0 envC10 none = JSVal.obj [("a", JSVal.str "y")] from rfl] at h
  injection h with h1
  injection h1 with h2 h3
  injection h2 with h4 h5
  injection h5 with h6
  exact absurd h6 (by decide)

/-- Helper: whatever theme is dispatched, `renderResume` assigns the class
built from the resolved theme identifier. -/
theorem renderResume_className (d : JSVal) (q : Option String) :
    (renderResume d q).className = "resume theme-" ++ (resolveNorm d q).jsStr := by
  cases h2 : isStrEq (resolveNorm d q) "t2" with
  | true => simp only [renderResume, h2, if_true]
  | false =>
    cases h3 : isStrEq (resolveNorm d q) "t3" <;>
      simp only [renderResume, h2, h3, Bool.false_eq_true, if_false, if_true]

/-- C3: a record whose `theme` field is the string `t2` renders with the
two-column layout `renderResumeTheme2` (and the `theme-t2` root class)
whatever the query string requests: the record's own field takes
precedence over the query-string override and the default. -/
theorem c3_record_theme_precedence (d : JSVal) (q : Option String)
    (h : jsGetD d "theme" = JSVal.str "t2") :
    renderResume d q = ⟨"resume theme-t2", renderResumeTheme2 d⟩ := by
  have hd : d.truthy = true := by
    cases d <;> first | rfl | (exfalso; simp [jsGetD] at h)
  have hn : resolveNorm d q = JSVal.str "t2" := by
    unfold resolveNorm
    rw [hd, h]
    rfl
  simp only [renderResume, hn]
  rfl

/-- C3 witness: record theme `t2` wins over query `theme=t1`. -/
theorem c3_witness :
    renderResume (JSVal.obj [("theme", JSVal.str "t2")]) (some "t1")
      = ⟨"resume theme-t2", renderResumeTheme2 (JSVal.obj [("theme", JSVal.str "t2")])⟩ :=
  c3_record_theme_precedence (JSVal.obj [("theme", JSVal.str "t2")]) (some "t1") rfl

/-- C4: when the resolved theme identifier is none of the three known
themes, `renderResume` dispatches to the single-column default
`renderResumeTheme1`, still applying the resolved class; it is a total
function, so no error is raised. -/
theorem c4_unknown_theme_falls_back (d : JSVal) (q : Option String)
    (_h1 : isStrEq (resolveNorm d q) "t1" = false)
    (h2 : isStrEq (resolveNorm d q) "t2" = false)
    (h3 : isStrEq (resolveNorm d q) "t3" = false) :
    renderResume d q = ⟨"resume theme-" ++ (resolveNorm d q).jsStr, renderResumeTheme1 d⟩ := by
  simp [renderResume, h2, h3]

/-- C4 witness: the unrecognized record theme `t9` renders with the
default single-column layout. -/
theorem c4_witness :
    renderResume (JSVal.obj [("theme", JSVal.str "t9")]) none
      = ⟨"resume theme-t9", renderResumeTheme1 (JSVal.obj [("theme", JSVal.str "t9")])⟩ :=
  c4_unknown_theme_falls_back (JSVal.obj [("theme", JSVal.str "t9")]) none rfl rfl rfl

/-- Helper: removing a field makes its lookup miss. -/
theorem lookupField_removeField (fs : List (String × JSVal)) (k : String) :
    lookupField (removeField fs k) k = none := by
  induction fs with
  | nil => rfl
  | cons p ps ih =>
    by_cases hp : p.1 = k
    · have h2 : (p.1 != k) = false := by simp [bne_iff_ne, hp]
      simpa [removeField, List.filter_cons, h2] using ih
    · have h2 : (p.1 != k) = true := by simp [bne_iff_ne, hp]
      simp only [removeField, List.filter_cons] at ih ⊢
      simp [h2, lookupField, ih, beq_iff_eq, hp]

/-- Helper: the query-or-default theme value is always truthy. -/
theorem themeQueryDefault_truthy (q : Option String) :
    (themeQueryDefault q).truthy = true := by
  cases q with
  | none => rfl
  | some s =>
    by_cases hs : s = ""
    · subst hs; rfl
    · simp [themeQueryDefault, hs, JSVal.truthy]

/-- C9: a record whose `theme` field is present but falsy (for example the
empty string) resolves its theme exactly as if the field were absent: the
query-string override, else the default `t1`, is used, and the root class
follows that resolution; the record's precedence applies only to truthy
theme values. -/
theorem c9_falsy_theme_ignored (fs : List (String × JSVal)) (q : Option String) (v : JSVal)
    (hf : lookupField fs "theme" = some v) (hv : v.truthy = false) :
    resolveNorm (JSVal.obj fs) q = resolveNorm (JSVal.obj (removeField fs "theme")) q
    ∧ resolveNorm (JSVal.obj fs) q = themeQueryDefault q
    ∧ (renderResume (JSVal.obj fs) q).className
        = "resume theme-" ++ (themeQueryDefault q).jsStr := by
  have htq := themeQueryDefault_truthy q
  have h1 : resolveNorm (JSVal.obj fs) q = themeQueryDefault q := by
    have ht : (JSVal.obj fs).truthy = true := rfl
    have hg : jsGetD (JSVal.obj fs) "theme" = v := by simp [jsGetD, hf]
    simp only [resolveNorm]
    simp [ht, hg, hv, htq]
  have h2 : resolveNorm (JSVal.obj (removeField fs "theme")) q = themeQueryDefault q := by
    have ht : (JSVal.obj (removeField fs "theme")).truthy = true := rfl
    have hg : jsGetD (JSVal.obj (removeField fs "theme")) "theme" = JSVal.null := by
      simp [jsGetD, lookupField_removeField]
    have hnul : JSVal.null.truthy = false := rfl
    simp only [resolveNorm]
    simp [ht, hg, hnul, htq]
  exact ⟨h1.trans h2.symm, h1, by rw [renderResume_className, h1]⟩

/-- C9 witness: an empty-string record theme defers to the query override
`t3`. -/
theorem c9_witness :
    resolveNorm (JSVal.obj [("theme", JSVal.str "")]) (some "t3") = JSVal.str "t3" :=
  ((c9_falsy_theme_ignored [("theme", JSVal.str "")] (some "t3") (JSVal.str "") rfl rfl).2.1).trans rfl

/-- C6 (amended): when the loader yields truthy data, `bootstrap` catches
any exception the renderer throws and shows the notice element (hides it
on success), and the container ends up holding exactly what the renderer
left there — the completed render on success, or, on an exception, the
partial content appended before the throw, which the catch does not
clear. -/
theorem c6_render_exception_caught (env : FetchEnv) (yaml : YamlEnv) (q : Option String)
    (init : List Node) (initCls : String)
    (hd : (loadResumeDataApp env yaml).truthy = true) :
    (bootstrapApp env yaml q init initCls).devNoteHidden
        = !exceptIsError (renderResume (loadResumeDataApp env yaml) q).result
    ∧ (bootstrapApp env yaml q init initCls).rootChildren
        = renderedChildren (renderResume (loadResumeDataApp env yaml) q).result
    ∧ (bootstrapApp env yaml q init initCls).className
        = (renderResume (loadResumeDataApp env yaml) q).className := by
  simp only [bootstrapApp, hd, if_true]
  cases hr : (renderResume (loadResumeDataApp env yaml) q).result with
  | error part => simp [hr, exceptIsError, renderedChildren]
  | ok ns => simp [hr, exceptIsError, renderedChildren]

/-- C6 witness: on a record with a `null` education entry the renderer
throws, and bootstrap reports the notice (not-hidden) state. -/
theorem c6_witness :
    (bootstrapApp envC6 none none [] "").devNoteHidden
      = !exceptIsError (renderResume (loadResumeDataApp envC6 none) none).result :=
  (c6_render_exception_caught envC6 none none [] "" rfl).1

/-- C6 counterexample: with `resume.json` holding
`{"name":"A","education":[null]}`, rendering throws after the header was
appended; the notice is shown, yet the résumé container is not empty — it
retains the header, a partially rendered page. -/
theorem c6_counterexample :
    (bootstrapApp envC6 none none [] "").devNoteHidden = false
    ∧ exceptIsError (renderResume (loadResumeDataApp envC6 none) none).result = true
    ∧ (bootstrapApp envC6 none none [] "").rootChildren.length = 1 :=
  ⟨rfl, rfl, rfl⟩

/-- Helper: a successfully built header is a `div`, never a section. -/
theorem renderHeaderE_heading (d : JSVal) (h : Node) (hh : renderHeaderE d = .ok h) :
    sectionHeading h = none := by
  unfold renderHeaderE at hh
  cases hcb : contactBitsE d with
  | error er => rw [hcb] at hh; cases hh
  | ok bits => rw [hcb] at hh; cases hh; rfl

/-- Helper: a produced summary section has the summary heading and a
truthy backing value. -/
theorem renderSummary_heading (v : JSVal) (n : Node) (h : renderSummary v = some n) :
    sectionHeading n = some "Professional summary" ∧ v.truthy = true := by
  unfold renderSummary at h
  cases hv : v.truthy with
  | false => rw [hv] at h; simp at h
  | true =>
    rw [hv] at h
    simp only [if_true] at h
    cases h
    exact ⟨rfl, rfl⟩

/-- Helper: a produced skills section has the Skills heading and a
nonempty backing array. -/
theorem renderSkills_heading (v : JSVal) (n : Node) (h : renderSkills v = some n) :
    sectionHeading n = some "Skills" ∧ isNonemptyArr v = true := by
  cases v with
  | arr items =>
    cases hi : items.isEmpty with
    | true => simp [renderSkills, hi] at h
    | false =>
      simp only [renderSkills, hi, Bool.false_eq_true, if_false] at h
      cases h
      exact ⟨rfl, by simp [isNonemptyArr, hi]⟩
  | null => simp [renderSkills] at h
  | bool b => simp [renderSkills] at h
  | num l => simp [renderSkills] at h
  | str s => simp [renderSkills] at h
  | obj fs => simp [renderSkills] at h

/-- Helper: a produced experience section has the Employment history
heading and a nonempty backing array. -/
theorem renderExperience_heading (v : JSVal) (n : Node) (h : renderExperience v = some n) :
    sectionHeading n = some "Employment history" ∧ isNonemptyArr v = true := by
  cases v with
  | arr items =>
    cases hi : items.isEmpty with
    | true => simp [renderExperience, hi] at h
    | false =>
      simp only [renderExperience, hi, Bool.false_eq_true, if_false] at h
      cases h
      exact ⟨rfl, by simp [isNonemptyArr, hi]⟩
  | null => simp [renderExperience] at h
  | bool b => simp [renderExperience] at h
  | num l => simp [renderExperience] at h
  | str s => simp [renderExperience] at h
  | obj fs => simp [renderExperience] at h

/-- Helper: a produced education section has the Education heading and a
nonempty backing array. -/
theorem renderEducationE_heading (v : JSVal) (n : Node)
    (h : renderEducationE v = .ok (some n)) :
    sectionHeading n = some "Education" ∧ isNonemptyArr v = true := by
  cases v with
  | arr items =>
    cases hi : items.isEmpty with
    | true => simp [renderEducationE, hi] at h
    | false =>
      simp only [renderEducationE, hi, Bool.false_eq_true, if_false] at h
      cases hm : mapE eduItemE items with
      | error er => rw [hm] at h; cases h
      | ok ns =>
        rw [hm] at h
        cases h
        exact ⟨rfl, by simp [isNonemptyArr, hi]⟩
  | null => simp [renderEducationE] at h
  | bool b => simp [renderEducationE] at h
  | num l => simp [renderEducationE] at h
  | str s => simp [renderEducationE] at h
  | obj fs => simp [renderEducationE] at h

/-- Helper: a produced certifications section has the Certifications
heading and a nonempty backing array. -/
theorem renderCertsE_heading (v : JSVal) (n : Node)
    (h : renderCertsE v = .ok (some n)) :
    sectionHeading n = some "Certifications" ∧ isNonemptyArr v = true := by
  cases v with
  | arr items =>
    cases hi : items.isEmpty with
    | true => simp [renderCertsE, hi] at h
    | false =>
      simp only [renderCertsE, hi, Bool.false_eq_true, if_false] at h
      cases hm : mapE certItemE items with
      | error er => rw [hm] at h; cases h
      | ok ns =>
        rw [hm] at h
        cases h
        exact ⟨rfl, by simp [isNonemptyArr, hi]⟩
  | null => simp [renderCertsE] at h
  | bool b => simp [renderCertsE] at h
  | num l => simp [renderCertsE] at h
  | str s => simp [renderCertsE] at h
  | obj fs => simp [renderCertsE] at h

/-- Helper: any node with a section heading among the theme-1 children
comes from one of the five section renderers, whose backing field is
truthy respectively a nonempty array. -/
theorem theme1_heading_mem (d : JSVal) (n : Node)
    (hn : n ∈ renderedChildren (renderResumeTheme1 d)) (t : String)
    (ht : sectionHeading n = some t) :
    (t = "Professional summary" ∧ (jsGetD d "summary").truthy = true)
    ∨ (t = "Skills" ∧ isNonemptyArr (jsGetD d "skills") = true)
    ∨ (t = "Employment history" ∧ isNonemptyArr (jsGetD d "experience") = true)
    ∨ (t = "Education" ∧ isNonemptyArr (jsGetD d "education") = true)
    ∨ (t = "Certifications" ∧ isNonemptyArr (jsGetD d "certifications") = true) := by
  unfold renderResumeTheme1 at hn
  cases hH : renderHeaderE d with
  | error er => rw [hH] at hn; simp [renderedChildren] at hn
  | ok h =>
    rw [hH] at hn
    unfold sectionsT1E at hn
    cases hE : renderEducationE (jsGetD d "education") with
    | error er =>
      rw [hE] at hn
      simp [renderedChildren] at hn
      subst hn
      rw [renderHeaderE_heading d n hH] at ht
      cases ht
    | ok s4 =>
      rw [hE] at hn
      cases hC : renderCertsE (jsGetD d "certifications") with
      | error er =>
        rw [hC] at hn
        simp [renderedChildren] at hn
        subst hn
        rw [renderHeaderE_heading d n hH] at ht
        cases ht
      | ok s5 =>
        rw [hC] at hn
        simp only [renderedChildren, List.mem_cons] at hn
        rcases hn with rfl | hn
        · rw [renderHeaderE_heading d n hH] at ht
          cases ht
        · rw [List.mem_filterMap] at hn
          rcases hn with ⟨o, ho, hi⟩
          simp only [id_eq] at hi
          subst hi
          simp only [List.mem_cons, List.mem_singleton, List.not_mem_nil, or_false] at ho
          rcases ho with h1 | h1 | h1 | h1 | h1
          · obtain ⟨hh, hv⟩ := renderSummary_heading _ _ h1.symm
            rw [hh] at ht
            cases ht
            exact Or.inl ⟨rfl, hv⟩
          · obtain ⟨hh, hv⟩ := renderSkills_heading _ _ h1.symm
            rw [hh] at ht
            cases ht
            exact Or.inr (Or.inl ⟨rfl, hv⟩)
          · obtain ⟨hh, hv⟩ := renderExperience_heading _ _ h1.symm
            rw [hh] at ht
            cases ht
            exact Or.inr (Or.inr (Or.inl ⟨rfl, hv⟩))
          · obtain ⟨hh, hv⟩ := renderEducationE_heading _ _ (by rw [hE, ← h1])
            rw [hh] at ht
            cases ht
            exact Or.inr (Or.inr (Or.inr (Or.inl ⟨rfl, hv⟩)))
          · obtain ⟨hh, hv⟩ := renderCertsE_heading _ _ (by rw [hC, ← h1])
            rw [hh] at ht
            cases ht
            exact Or.inr (Or.inr (Or.inr (Or.inr ⟨rfl, hv⟩)))

/-- C7: in the single-column layout, every section whose backing field is
absent, falsy, or an empty list is omitted entirely: no section node with
the corresponding heading appears among the rendered children, for each of
summary, skills, experience, education and certifications. -/
theorem c7_empty_sections_omitted (d : JSVal) :
    ((jsGetD d "summary").truthy = false →
      listHasSection (renderedChildren (renderResumeTheme1 d)) "Professional summary" = false)
    ∧ (isNonemptyArr (jsGetD d "skills") = false →
      listHasSection (renderedChildren (renderResumeTheme1 d)) "Skills" = false)
    ∧ (isNonemptyArr (jsGetD d "experience") = false →
      listHasSection (renderedChildren (renderResumeTheme1 d)) "Employment history" = false)
    ∧ (isNonemptyArr (jsGetD d "education") = false →
      listHasSection (renderedChildren (renderResumeTheme1 d)) "Education" = false)
    ∧ (isNonemptyArr (jsGetD d "certifications") = false →
      listHasSection (renderedChildren (renderResumeTheme1 d)) "Certifications" = false) := by
  have no : ∀ t : String,
      (((t = "Professional summary" ∧ (jsGetD d "summary").truthy = true)
        ∨ (t = "Skills" ∧ isNonemptyArr (jsGetD d "skills") = true)
        ∨ (t = "Employment history" ∧ isNonemptyArr (jsGetD d "experience") = true)
        ∨ (t = "Education" ∧ isNonemptyArr (jsGetD d "education") = true)
        ∨ (t = "Certifications" ∧ isNonemptyArr (jsGetD d "certifications") = true)) → False) →
      listHasSection (renderedChildren (renderResumeTheme1 d)) t = false := by
    intro t hcon
    rw [listHasSection, List.any_eq_false]
    intro n hn hp
    have hs2 : sectionHeading n = some t := by simpa using hp
    exact hcon (theme1_heading_mem d n hn t hs2)
  refine ⟨fun hf => no _ ?_, fun hf => no _ ?_, fun hf => no _ ?_,
      fun hf => no _ ?_, fun hf => no _ ?_⟩ <;>
    · intro hdis
      rcases hdis with ⟨heq, hv⟩ | ⟨heq, hv⟩ | ⟨heq, hv⟩ | ⟨heq, hv⟩ | ⟨heq, hv⟩ <;>
        first
          | (exact absurd heq (by decide))
          | (rw [hf] at hv; exact absurd hv (by decide))

/-- C7 witness: the empty record renders with no summary section node. -/
theorem c7_witness :
    listHasSection (renderedChildren (renderResumeTheme1 (JSVal.obj []))) "Professional summary"
      = false :=
  (c7_empty_sections_omitted (JSVal.obj [])).1 rfl

/-- Helper: the collected skill items of a record with string categories
are the concatenation of all categories' strings. -/
theorem collect_mkSkills (cats : List (List String)) :
    collectSkillItems (cats.map (fun c => JSVal.obj [("items", JSVal.arr (c.map JSVal.str))]))
      = (cats.flatten).map JSVal.str := by
  induction cats with
  | nil => rfl
  | cons c cs ih =>
    have hg : jsGetD (JSVal.obj [("items", JSVal.arr (c.map JSVal.str))]) "items"
        = JSVal.arr (c.map JSVal.str) := rfl
    have ht : (JSVal.obj [("items", JSVal.arr (c.map JSVal.str))]).truthy = true := rfl
    simp [collectSkillItems, hg, ht, ih]

/-- Helper: the JS `Set` model on a list of strings is exactly first-seen
string deduplication. -/
theorem setDedupGo_str (l : List String) (seen : List String) :
    setDedupGo (l.map JSVal.str) (seen.map PrimKey.pstr)
      = (dedupStrGo l seen).map JSVal.str := by
  induction l generalizing seen with
  | nil => rfl
  | cons x xs ih =>
    by_cases hx : x ∈ seen
    · have hm : PrimKey.pstr x ∈ seen.map PrimKey.pstr := List.mem_map_of_mem _ hx
      simp [setDedupGo, primKey, dedupStrGo, hm, hx, ih]
    · have hm : PrimKey.pstr x ∉ seen.map PrimKey.pstr := by
        intro hc
        rcases List.mem_map.mp hc with ⟨y, hy, hxy⟩
        injection hxy with he
        exact hx (he ▸ hy)
      have ih2 := ih (x :: seen)
      simp only [List.map_cons] at ih2
      simp [setDedupGo, primKey, dedupStrGo, hm, hx, ih2]

/-- Helper: joining string values renders each string as itself. -/
theorem jsArrayJoin_str (sep : String) (l : List String) :
    jsArrayJoin sep (l.map JSVal.str) = String.intercalate sep l := by
  unfold jsArrayJoin
  have h : (l.map JSVal.str).map jsStrElem = l := by
    induction l with
    | nil => rfl
    | cons x xs ih => simp [jsStrElem, ih]
  rw [h]

/-- C5: the single-column skills rendering flattens all categories into
one list, de-duplicates it by value in first-seen order across the
combined list, and joins it with a comma separator; on the record of the
claim it yields exactly the text `Go, Rust`. -/
theorem c5_skills_dedup :
    renderSkills (mkSkillsVal [["Go", "Go", "Rust"], ["Rust"]])
      = some (Node.elem "section" "sec" []
          [h2Node "Skills", Node.elem "div" "muted" [] [Node.rawHtml "Go, Rust"]])
    ∧ ∀ cats : List (List String),
        renderSkills (mkSkillsVal cats)
          = if cats.isEmpty then none
            else some (Node.elem "section" "sec" []
              [h2Node "Skills",
               Node.elem "div" "muted" []
                 [Node.rawHtml (String.intercalate ", " (dedupFirstSeenStr cats.flatten))]]) := by
  constructor
  · rfl
  · intro cats
    have key : jsArrayJoin ", " (setDedup (collectSkillItems
          (cats.map (fun c => JSVal.obj [("items", JSVal.arr (c.map JSVal.str))]))))
        = String.intercalate ", " (dedupFirstSeenStr cats.flatten) := by
      rw [collect_mkSkills]
      rw [show setDedup ((cats.flatten).map JSVal.str)
            = (dedupStrGo cats.flatten []).map JSVal.str from setDedupGo_str cats.flatten []]
      rw [jsArrayJoin_str]
      rfl
    cases cats with
    | nil => rfl
    | cons c cs =>
      simp only [List.map_cons] at key
      simp only [mkSkillsVal, renderSkills, List.map_cons, List.isEmpty_cons,
        Bool.false_eq_true, if_false, key]

/-- Helper: a string with a nonempty literal in front is truthy. -/
theorem strVal_lit_truthy (pre s : String) (h : pre.data ≠ []) :
    (JSVal.str (pre ++ s)).truthy = true := by
  have hne : ((pre ++ s) == "") = false := by
    rw [beq_eq_false_iff_ne]
    intro hc
    have hd : (pre ++ s).data = [] := by rw [hc]
    rw [String.data_append] at hd
    exact h (List.append_eq_nil.mp hd).1
  simp [JSVal.truthy, hne]

/-- Helper: with no null entry, the links loop collects exactly the
linkified entries, in order, dropping falsy urls, and throws nothing. -/
theorem linkBitsE_no_null (ls : List JSVal) (h : ∀ l ∈ ls, l ≠ JSVal.null) :
    linkBitsE ls = .ok (ls.filterMap (fun l => linkify (jsGetD l "url") (jsGetD l "label"))) := by
  induction ls with
  | nil => rfl
  | cons l ls ih =>
    have hl : l ≠ JSVal.null := h l (by simp)
    have ihh := ih (fun x hx => h x (List.mem_cons_of_mem _ hx))
    cases l with
    | null => exact absurd rfl hl
    | bool b =>
      simp only [linkBitsE, ihh, List.filterMap_cons]
      cases hlk : linkify (jsGetD (JSVal.bool b) "url") (jsGetD (JSVal.bool b) "label") <;>
        simp [hlk]
    | num lit =>
      simp only [linkBitsE, ihh, List.filterMap_cons]
      cases hlk : linkify (jsGetD (JSVal.num lit) "url") (jsGetD (JSVal.num lit) "label") <;>
        simp [hlk]
    | str s =>
      simp only [linkBitsE, ihh, List.filterMap_cons]
      cases hlk : linkify (jsGetD (JSVal.str s) "url") (jsGetD (JSVal.str s) "label") <;>
        simp [hlk]
    | arr xs =>
      simp only [linkBitsE, ihh, List.filterMap_cons]
      cases hlk : linkify (jsGetD (JSVal.arr xs) "url") (jsGetD (JSVal.arr xs) "label") <;>
        simp [hlk]
    | obj fs =>
      simp only [linkBitsE, ihh, List.filterMap_cons]
      cases hlk : linkify (jsGetD (JSVal.obj fs) "url") (jsGetD (JSVal.obj fs) "label") <;>
        simp [hlk]

/-- Helper: a linkified node is an anchor, never the separator dot. -/
theorem linkify_not_dot (u l : JSVal) (n : Node) (h : linkify u l = some n) :
    isDot n = false := by
  unfold linkify at h
  cases hu : u.truthy with
  | false => rw [hu] at h; simp at h
  | true =>
    rw [hu] at h
    simp only [if_true] at h
    cases h
    rfl

/-- Helper: dot-joining a list with no dot entries yields one separator
fewer than the entries. -/
theorem countP_isDot_dotJoin : ∀ bs : List Node, (∀ b ∈ bs, isDot b = false) →
    (dotJoin bs).countP isDot = bs.length - 1
  | [], _ => by simp [dotJoin]
  | [b], h => by simp [dotJoin, List.countP_cons, h b (by simp)]
  | b :: b2 :: bs, h => by
    have ih := countP_isDot_dotJoin (b2 :: bs) (fun x hx => h x (List.mem_cons_of_mem _ hx))
    have hb := h b (by simp)
    have hdot : isDot dotNode = true := rfl
    simp only [dotJoin, List.countP_cons, ih, hb, hdot, List.length_cons]
    simp

/-- Helper: none of the contact-line entries is the separator dot. -/
theorem specContactBits_no_dot (d : JSVal) : ∀ b ∈ specContactBits d, isDot b = false := by
  intro b hb
  unfold specContactBits at hb
  simp only [List.mem_append] at hb
  have hone : ∀ (c : Bool) (x : Node), b ∈ (if c = true then [x] else ([] : List Node)) → b = x := by
    intro c x hbx
    cases c with
    | false => simp at hbx
    | true => simpa using hbx
  rcases hb with ((hb | hb) | hb) | hb
  · rw [hone _ _ hb]; rfl
  · rw [hone _ _ hb]; rfl
  · rw [hone _ _ hb]; rfl
  · cases hlk : jsGetD d "links" with
    | arr ls =>
      rw [hlk] at hb
      rcases List.mem_filterMap.mp hb with ⟨l, _, hl⟩
      exact linkify_not_dot _ _ _ hl
    | null => rw [hlk] at hb; simp at hb
    | bool b2 => rw [hlk] at hb; simp at hb
    | num lit => rw [hlk] at hb; simp at hb
    | str s => rw [hlk] at hb; simp at hb
    | obj fs => rw [hlk] at hb; simp at hb

/-- C8: the header's contact line holds exactly the truthy contact fields
in order — location, then a `tel:`-scheme anchor on the
whitespace-stripped phone value whose visible text is the original value,
then a `mailto:`-scheme anchor for the email, then the links — with a dot
separator between consecutive entries only: n entries produce n−1
separators (and zero entries produce none). -/
theorem c8_contact_line (d : JSVal)
    (hl : ∀ ls, jsGetD d "links" = JSVal.arr ls → ∀ l ∈ ls, l ≠ JSVal.null) :
    contactBitsE d = .ok (specContactBits d)
    ∧ renderHeaderE d = .ok (Node.elem "div" "hdr" []
        [whoNode d, Node.elem "div" "contacts-line" [] (dotJoin (specContactBits d)), decoNode])
    ∧ (dotJoin (specContactBits d)).countP isDot = (specContactBits d).length - 1 := by
  have hphone : (if (jsGetD d "phone").truthy = true then
        (match linkify (JSVal.str ("tel:" ++ stripJsWs (jsGetD d "phone").jsStr))
            (jsGetD d "phone") with
         | some a => [a]
         | none => []) else ([] : List Node))
      = (if (jsGetD d "phone").truthy = true then
        [Node.elem "a" ""
          [("href", "tel:" ++ stripJsWs (jsGetD d "phone").jsStr),
           ("target", "_blank"), ("rel", "noopener")]
          [Node.textNode (jsGetD d "phone").jsStr]] else []) := by
    cases hp : (jsGetD d "phone").truthy with
    | false => simp
    | true =>
      have hu : (JSVal.str ("tel:" ++ stripJsWs (jsGetD d "phone").jsStr)).truthy = true :=
        strVal_lit_truthy "tel:" _ (by decide)
      have hjs : ∀ t : String, (JSVal.str t).jsStr = t := fun t => rfl
      simp [linkify, hu, hp, hjs]
  have hemail : (if (jsGetD d "email").truthy = true then
        (match linkify (JSVal.str ("mailto:" ++ (jsGetD d "email").jsStr))
            (jsGetD d "email") with
         | some a => [a]
         | none => []) else ([] : List Node))
      = (if (jsGetD d "email").truthy = true then
        [Node.elem "a" ""
          [("href", "mailto:" ++ (jsGetD d "email").jsStr),
           ("target", "_blank"), ("rel", "noopener")]
          [Node.textNode (jsGetD d "email").jsStr]] else []) := by
    cases he : (jsGetD d "email").truthy with
    | false => simp
    | true =>
      have hu : (JSVal.str ("mailto:" ++ (jsGetD d "email").jsStr)).truthy = true :=
        strVal_lit_truthy "mailto:" _ (by decide)
      have hjs : ∀ t : String, (JSVal.str t).jsStr = t := fun t => rfl
      simp [linkify, hu, he, hjs]
  have key : contactBitsE d = .ok (specContactBits d) := by
    unfold contactBitsE specContactBits
    cases hlk : jsGetD d "links" with
    | arr ls =>
      dsimp only
      rw [linkBitsE_no_null ls (hl ls hlk), hphone, hemail]
    | null => dsimp only; rw [hphone, hemail]; simp [List.append_assoc]
    | bool b => dsimp only; rw [hphone, hemail]; simp [List.append_assoc]
    | num lit => dsimp only; rw [hphone, hemail]; simp [List.append_assoc]
    | str s => dsimp only; rw [hphone, hemail]; simp [List.append_assoc]
    | obj fs => dsimp only; rw [hphone, hemail]; simp [List.append_assoc]
  refine ⟨key, ?_, countP_isDot_dotJoin _ (specContactBits_no_dot d)⟩
  unfold renderHeaderE
  rw [key]

/-- C8 witness: a record with all four kinds of contact entries yields
the four entries and three separators. -/
theorem c8_witness :
    contactBitsE dC8 = .ok (specContactBits dC8)
    ∧ (dotJoin (specContactBits dC8)).countP isDot = 3 := by
  have hl : ∀ ls, jsGetD dC8 "links" = JSVal.arr ls → ∀ l ∈ ls, l ≠ JSVal.null := by
    intro ls hls
    have h0 : jsGetD dC8 "links"
        = JSVal.arr [JSVal.obj [("url", JSVal.str "https://u"), ("label", JSVal.str "L")]] := rfl
    rw [h0] at hls
    injection hls with h1
    subst h1
    intro l hlmem
    simp only [List.mem_singleton] at hlmem
    subst hlmem
    intro hc
    cases hc
  have h := c8_contact_line dC8 hl
  exact ⟨h.1, (h.2.2).trans (by rfl)⟩
